import Mathlib

/-! Shallow embedding of src/src/executor.rs (the lelet work-stealing executor).

Conventions:
* usize and u64 are modelled as Nat; where wrap-around matters the modulus
  2^64 is applied explicitly (the model fixes the word size at 64 bits,
  which is what the crate runs on).
* crossbeam outcomes (Steal) are modelled by the Steal inductive; an
  injector or stealer is observed through the finite list of outcomes that
  its successive steal_batch_and_pop calls return during one retry loop
  (an outcome oracle).  An exhausted oracle models a retry loop that never
  resolves, hence the Option-valued results (none = the source loop spins
  forever and the surrounding call never returns).
* Values that another thread can change between observations
  (processor.machine_id, queue contents, channel state) enter the model as
  explicit oracle inputs, one per observation point in the source.
-/

namespace Lelet

variable {τ : Type}

/-- INVALID_ID = usize::MAX on the 64-bit hosts the crate targets (src line 27). -/
def INVALID_ID : Nat := 2 ^ 64 - 1

/-- Modulus of u64 / usize arithmetic. -/
def U64_MOD : Nat := 2 ^ 64

/-- BLOCKING_THRESHOLD in milliseconds (src line 25). -/
def BLOCKING_THRESHOLD_MS : Nat := 100

/-- MAX_RUNS (src line 361). -/
def MAX_RUNS : Nat := 64

/-- crossbeam_deque::Steal, the result type of steal_batch_and_pop. -/
inductive Steal (τ : Type) where
  | Success : τ → Steal τ
  | Empty : Steal τ
  | Retry : Steal τ
  deriving DecidableEq

/-- The predicate of the filter at src lines 233 and 308. -/
def Steal.isRetry : Steal τ → Bool
  | Steal.Retry => true
  | _ => false

/-- One retry loop over steal_batch_and_pop outcomes: mirrors
repeat_with(..).filter(not Retry).nth(0) (src lines 232-239 and 307-314):
the first non-Retry outcome of the oracle, none when the oracle is
exhausted while still retrying (the source loop then never terminates). -/
def resolveRetries (q : List (Steal τ)) : Option (Steal τ) :=
  (q.filter fun s => !s.isRetry).head?

/-- The match mapping Success to Some(task) and Empty to None
(src lines 309-313 and 234-238).  The Retry arm of the source match is
unsafe unreachable_unchecked; it is proven dead (see the C10 theorem via
stealMatchArm/retryLoopArm below), so mapping it to none here does not
lose faithfulness. -/
def stealToTask : Steal τ → Option τ
  | Steal.Success t => some t
  | _ => none

/-- Processor::pop (src lines 305-316).  Outer none = the retry loop never
resolves (divergence). -/
def processorPop (q : List (Steal τ)) : Option (Option τ) :=
  (resolveRetries q).map stealToTask

/-- Lazy scan mirroring .map(pop).filter(is_some).nth(0).flatten of
Executor::pop (src lines 215-220): later injectors are only consulted when
every earlier one resolved to Empty. -/
def popScan : List (List (Steal τ)) → Option (Option τ)
  | [] => some none
  | q :: rest =>
    match processorPop q with
    | none => none
    | some (some t) => some (some t)
    | some none => popScan rest

/-- Executor::pop (src lines 211-221): split_at index gives (l, r); the
iterator chains r then l, i.e. drop i then take i. -/
def executorPop (qs : List (List (Steal τ))) (i : Nat) : Option (Option τ) :=
  popScan (qs.drop i ++ qs.take i)

/-- Inner scan of Executor::steal with its 1-based hint_add from zip (1..)
(src lines 226-244). -/
def stealScan : Nat → List (List (Steal τ)) → Option (Option (τ × Nat))
  | _, [] => some none
  | k, q :: rest =>
    match resolveRetries q with
    | none => none
    | some (Steal.Success t) => some (some (t, k))
    | some _ => stealScan (k + 1) rest

/-- Executor::steal (src lines 223-252).  Input m is the loaded
machine_steal_index_hint; the result carries the task (if any) and the
value of the hint after the call (the store at src lines 246-248 only
happens on success). -/
def executorSteal (ms : List (List (Steal τ))) (m : Nat) : Option (Option τ × Nat) :=
  match stealScan 1 (ms.drop m ++ ms.take m) with
  | none => none
  | some none => some (none, m)
  | some (some (t, k)) => some (some t, (m + k) % ms.length)

/-- Executor::push (src lines 195-209) on a vector of n processors, for a
task whose schedule_hint loads as hint while the push index hint loads as
ph.  Result: (index the task is enqueued at, push hint afterwards); none
models the panic of the out-of-bounds vector index self.processors[index]
at src line 208.  Note the source comparison at line 199 is index > len,
not index >= len. -/
def executorPush (n hint ph : Nat) : Option (Nat × Nat) :=
  if n < hint then
    if ph < n then some (ph, (ph + 1) % n) else none
  else
    if hint < n then some (hint, ph) else none

/-- Scheduling-relevant state of a Processor (src lines 51-65); the
injector and the wake channel are modelled separately by oracles and
events. -/
structure ProcModel where
  machine_id : Nat
  last_seen : Nat
  sleeping : Bool
  deriving DecidableEq

/-- A Machine (src lines 67-75).  Worker deques are identified by the id
of the machine that created them (each create_with_processor creates
exactly one fresh worker, src line 332), so stealer and inherit are those
tokens. -/
structure MachineModel where
  id : Nat
  stealer : Nat
  inherit : Nat
  deriving DecidableEq

/-- Processor construction in the EXECUTOR initializer (src lines 87-95):
machine_id starts at INVALID_ID, last_seen at 0, sleeping at true. -/
def initialProcessor : ProcModel :=
  { machine_id := INVALID_ID, last_seen := 0, sleeping := true }

/-- Machine::create_with_processor (src lines 326-352): allocate a fresh
id from MACHINE_ID_COUNTER, store it into the processor's machine_id,
create a fresh worker (token = the fresh id) and keep the passed-in
inherit stealer.  Returns the updated processor, the new machine and the
counter afterwards. -/
def createWithProcessor (p : ProcModel) (inh : Nat) (ctr : Nat) :
    ProcModel × MachineModel × Nat :=
  ({ p with machine_id := ctr }, { id := ctr, stealer := ctr, inherit := inh }, ctr + 1)

/-- must_seen_at = now_ms() - BLOCKING_THRESHOLD in u64 arithmetic
(src line 152), which wraps below 100 ms. -/
def mustSeenAt (now : Nat) : Nat :=
  (now + (U64_MOD - BLOCKING_THRESHOLD_MS)) % U64_MOD

/-- The skip condition of the sysmon scan (src line 157):
p.is_sleeping() or must_seen_at <= p.get_last_seen(). -/
def shouldSkip (now : Nat) (p : ProcModel) : Bool :=
  p.sleeping || decide (mustSeenAt now ≤ p.last_seen)

/-- One scan of the sysmon loop body over the zipped processors/machines
vectors (src lines 154-191), threading MACHINE_ID_COUNTER: each
non-skipped slot is replaced by a machine created with the current
machine's stealer as inherit (src line 162), and the slot swap installs it
at the same index. -/
def scanGo (now : Nat) : List (ProcModel × MachineModel) → Nat →
    List (ProcModel × MachineModel) × Nat
  | [], ctr => ([], ctr)
  | pm :: rest, ctr =>
    if shouldSkip now pm.1 then
      let r := scanGo now rest ctr
      (pm :: r.1, r.2)
    else
      let c := createWithProcessor pm.1 pm.2.stealer ctr
      let r := scanGo now rest c.2.2
      ((c.1, c.2.1) :: r.1, r.2)

/-- Claim-side description of what a replaced slot must contain: the
processor with machine_id set to the fresh id, and a new machine with the
fresh id, a fresh worker, and the previous machine's stealer as inherit. -/
def replacement (pm : ProcModel × MachineModel) (fresh : Nat) : ProcModel × MachineModel :=
  ({ pm.1 with machine_id := fresh },
   { id := fresh, stealer := fresh, inherit := pm.2.stealer })

/-- How many of the first i slots the scan replaces (does not skip). -/
def replacedBelow (now : Nat) (l : List (ProcModel × MachineModel)) (i : Nat) : Nat :=
  ((l.take i).filter fun pm => !shouldSkip now pm.1).length

/-- Events through which the executor code touches a processor's
scheduling state or its wake channel. -/
inductive ProcEv where
  | tick : Nat → ProcEv
  | setSleeping : Bool → ProcEv
  | tryRecv : Bool → ProcEv
  | blockingRecv : ProcEv
  | snooze : ProcEv
  deriving DecidableEq

/-- Whether the event is a heartbeat write (Processor::tick, src 296-298). -/
def ProcEv.isTick : ProcEv → Bool
  | ProcEv.tick _ => true
  | _ => false

/-- Whether the event consumes one wake notification: a successful
try_recv (src 272-273) or the blocking recv (src 281). -/
def ProcEv.isConsume : ProcEv → Bool
  | ProcEv.tryRecv true => true
  | ProcEv.blockingRecv => true
  | _ => false

/-- Effect of an event on the processor state. -/
def applyEv (p : ProcModel) : ProcEv → ProcModel
  | ProcEv.tick t => { p with last_seen := t }
  | ProcEv.setSleeping b => { p with sleeping := b }
  | _ => p

/-- The spin/blocking loop of Processor::sleep (src lines 270-289): at
attempt i the non-blocking try_recv succeeds iff tries i; r counts the
snoozes left until Backoff::is_completed turns true, after which an
unsuccessful try falls through to the blocking recv. -/
def sleepLoop (tries : Nat → Bool) : Nat → Nat → List ProcEv
  | i, 0 =>
    if tries i then [ProcEv.tryRecv true]
    else [ProcEv.tryRecv false, ProcEv.blockingRecv]
  | i, r + 1 =>
    if tries i then [ProcEv.tryRecv true]
    else ProcEv.tryRecv false :: ProcEv.snooze :: sleepLoop tries (i + 1) r

/-- Processor::sleep (src lines 264-290): set_sleeping(true) first, then
the loop; the deferred set_sleeping(false) runs on every exit path just
before returning. -/
def sleepRun (limit : Nat) (tries : Nat → Bool) : List ProcEv :=
  ProcEv.setSleeping true :: (sleepLoop tries 0 limit ++ [ProcEv.setSleeping false])

/-- The entry of Machine::main before its loop (src lines 357-358):
processor.tick() and only then processor.set_sleeping(false). -/
def mainEntry (now : Nat) : List ProcEv :=
  [ProcEv.tick now, ProcEv.setSleeping false]

/-- Oracles for one iteration of Machine::main's main loop (src lines
368-432): the results each task source would yield this iteration, plus
the processor.machine_id value the post-run check would observe (at most
one task runs per iteration, so one observation suffices). -/
structure IterEnv (τ : Type) where
  throttlePop : Option τ
  workerPop : Option τ
  inheritSteal : Steal τ
  globalPop : Option τ
  remoteSteal : Option τ
  afterSleepPop : Option τ
  observedMachineId : Nat
  deriving DecidableEq

/-- Result of one iteration: a task was run (with the exit decision of the
post-run check and the run counter afterwards), or no task was run. -/
inductive IterOut (τ : Type) where
  | ranTask : τ → Bool → Nat → IterOut τ
  | noTask : Nat → IterOut τ
  deriving DecidableEq

/-- The run_task! macro after task.run() (src lines 380-388): if the
observed processor.machine_id differs from self.id the main loop returns
immediately; otherwise run_counter is incremented and the loop continues. -/
def runTaskStep (selfId observed rc : Nat) (t : τ) : IterOut τ :=
  if observed ≠ selfId then IterOut.ranTask t true rc
  else IterOut.ranTask t false (rc + 1)

/-- Task sources in source order after the throttle check (src lines
408-431): worker.pop, inherit steal, get_tasks (which resets the run
counter to 0 before popping, src line 394), remote steal, sleep followed
by get_tasks.  Returns the chosen task with the run counter at its run,
or the run counter when no source yields. -/
def machinePollRest (rc : Nat) (env : IterEnv τ) : Option (τ × Nat) × Nat :=
  match env.workerPop with
  | some t => (some (t, rc), rc)
  | none =>
    match env.inheritSteal with
    | Steal.Success t => (some (t, rc), rc)
    | _ =>
      match env.globalPop with
      | some t => (some (t, 0), 0)
      | none =>
        match env.remoteSteal with
        | some t => (some (t, 0), 0)
        | none =>
          match env.afterSleepPop with
          | some t => (some (t, 0), 0)
          | none => (none, 0)

/-- The throttle at src lines 404-406: when run_counter exceeds MAX_RUNS,
get_tasks runs first (resetting the counter). -/
def machinePoll (rc : Nat) (env : IterEnv τ) : Option (τ × Nat) × Nat :=
  if MAX_RUNS < rc then
    match env.throttlePop with
    | some t => (some (t, 0), 0)
    | none => machinePollRest 0 env
  else machinePollRest rc env

/-- One full iteration of the main loop. -/
def machineIter (selfId rc : Nat) (env : IterEnv τ) : IterOut τ :=
  match machinePoll rc env with
  | (some (t, r), _) => runTaskStep selfId env.observedMachineId r t
  | (none, r) => IterOut.noTask r

/-- Machine::main's loop (src lines 368-432) observed over a finite list
of per-iteration oracles: the trace of tasks run, each paired with the
machine_id value its post-run check observed.  The trace ends when the
check fails (the source return at line 384); an exhausted oracle list
merely truncates observation. -/
def machineMain (selfId : Nat) : Nat → List (IterEnv τ) → List (τ × Nat)
  | _, [] => []
  | rc, env :: rest =>
    match machineIter selfId rc env with
    | IterOut.ranTask t ex rc2 =>
      (t, env.observedMachineId) :: (if ex then [] else machineMain selfId rc2 rest)
    | IterOut.noTask rc2 => machineMain selfId rc2 rest

/-- Instrumented result of the starred match in Processor::pop and in the
inner loop of Executor::steal (src lines 309-313 and 234-238): ub marks
the unsafe unreachable_unchecked arm. -/
inductive RetryArm (τ : Type) where
  | ok : Option τ → RetryArm τ
  | ub : RetryArm τ
  deriving DecidableEq

/-- Whether the instrumented match took the undefined-behavior arm. -/
def RetryArm.isUb : RetryArm τ → Bool
  | RetryArm.ub => true
  | _ => false

/-- The starred match itself, arm by arm. -/
def stealMatchArm : Steal τ → RetryArm τ
  | Steal.Success t => RetryArm.ok (some t)
  | Steal.Empty => RetryArm.ok none
  | Steal.Retry => RetryArm.ub

/-- The whole retry loop with the instrumented match: exactly the shape
shared by Processor::pop and the per-machine loop inside Executor::steal. -/
def retryLoopArm (q : List (Steal τ)) : Option (RetryArm τ) :=
  (resolveRetries q).map stealMatchArm

/-- Claim-side traversal order starting at index i over n slots:
i, i+1, ..., n-1, 0, ..., i-1. -/
def stealOrder (n i : Nat) : List Nat :=
  ((List.range (n - i)).map fun k => i + k) ++ List.range i

/-- Claim-side reading of Executor::pop: attempt the injectors in
stealOrder, absorbing retries per injector, and return the first task. -/
def specPopScan (qs : List (List (Steal τ))) : List Nat → Option (Option τ)
  | [] => some none
  | j :: rest =>
    match resolveRetries (qs.getD j []) with
    | none => none
    | some (Steal.Success t) => some (some t)
    | some _ => specPopScan qs rest

/-- Claim-side Executor::pop. -/
def specPop (qs : List (List (Steal τ))) (i : Nat) : Option (Option τ) :=
  specPopScan qs (stealOrder qs.length i)

/-- Claim-side reading of Executor::steal's circuit: attempt machines in
stealOrder; on the first success at donor index j the new hint is one
position past the donor, (j + 1) mod N. -/
def specStealScan (ms : List (List (Steal τ))) : List Nat → Option (Option (τ × Nat))
  | [] => some none
  | j :: rest =>
    match resolveRetries (ms.getD j []) with
    | none => none
    | some (Steal.Success t) => some (some (t, (j + 1) % ms.length))
    | some _ => specStealScan ms rest

/-- Claim-side Executor::steal: first success with hint one past the
donor, or none with the hint unchanged after a full empty circuit. -/
def specSteal (ms : List (List (Steal τ))) (m : Nat) : Option (Option τ × Nat) :=
  match specStealScan ms (stealOrder ms.length m) with
  | none => none
  | some none => some (none, m)
  | some (some (t, h)) => some (some t, h)

/-- Post-processing of the inner scan of Executor::steal (the map at src
lines 245-250): on success store (m + hint_add) mod n. -/
def stealFinish (m n : Nat) : Option (Option (τ × Nat)) → Option (Option τ × Nat)
  | none => none
  | some none => some (none, m)
  | some (some (t, k)) => some (some t, (m + k) % n)

/-- Post-processing of the claim-side scan: the hint is already absolute. -/
def specFinish (m : Nat) : Option (Option (τ × Nat)) → Option (Option τ × Nat)
  | none => none
  | some none => some (none, m)
  | some (some (t, h)) => some (some t, h)

/-- A concrete iteration oracle: the local worker yields task 42 and the
post-run check observes machine_id 2. -/
def c3env : IterEnv Nat :=
  { throttlePop := none, workerPop := some 42, inheritSteal := Steal.Empty,
    globalPop := none, remoteSteal := none, afterSleepPop := none,
    observedMachineId := 2 }

/-- Concrete injector oracles for two processors. -/
def c4qs : List (List (Steal Nat)) := [[Steal.Empty], [Steal.Retry, Steal.Success 5]]

/-- Concrete stealer oracles for two machines. -/
def c5ms : List (List (Steal Nat)) := [[Steal.Empty], [Steal.Success 5]]

/-! Shared lemmas. -/

/-- A Retry outcome at the head of the oracle is absorbed by the filter of
the retry loop: the loop re-attempts the same queue. -/
theorem resolveRetries_cons_retry (q : List (Steal τ)) :
    resolveRetries (Steal.Retry :: q) = resolveRetries q := by
  simp [resolveRetries, List.filter_cons, Steal.isRetry]

/-- The retry loop only ever resolves to a non-Retry outcome. -/
theorem resolveRetries_isRetry_false (q : List (Steal τ)) :
    ∀ s, resolveRetries q = some s → s.isRetry = false := by
  induction q with
  | nil => intro s h; simp [resolveRetries] at h
  | cons a rest ih =>
    intro s h
    rw [resolveRetries, List.filter_cons] at h
    by_cases ha : a.isRetry
    · rw [if_neg (by simp [ha])] at h
      exact ih s h
    · rw [if_pos (by simp [ha]), List.head?_cons] at h
      obtain rfl : a = s := Option.some.inj h
      simpa using ha

/-! C1.  Executor::push with a schedule hint equal to the number of
processors: the comparison at src line 199 is a strict one, so hint = N
falls into the direct-index branch and self.processors[N] is out of
bounds.  The claim (and spec section 4.1) requires round-robin there. -/

/-- C1: with N = 2 processors and push hint 0, a task whose schedule hint
is 2 (= N) makes Executor::push index out of bounds (modelled as none),
instead of the round-robin enqueue into processor 0 that the claim
states; hints strictly greater than N do take the round-robin branch and
hints below N take the direct branch, as claimed. -/
theorem C1_push_hint_eq_len_out_of_bounds :
    executorPush 2 2 0 = none
    ∧ executorPush 2 3 0 = some (0, 1)
    ∧ executorPush 2 1 0 = some (1, 0) := by
  decide

/-! C7.  The INVALID sentinel always takes the round-robin branch. -/

/-- C7: a task with schedule hint INVALID_ID (the value every freshly
spawned task carries, src line 128) takes the round-robin branch of
Executor::push whenever N < INVALID_ID, and is enqueued at the push-hint
index, which is strictly below N; the advanced push hint stays below N as
well, so the sentinel never indexes outside the processors vector. -/
theorem C7_invalid_hint_round_robin (n ph : Nat) (h1 : 1 ≤ n)
    (h2 : n < INVALID_ID) (h3 : ph < n) :
    executorPush n INVALID_ID ph = some (ph, (ph + 1) % n)
    ∧ ph < n ∧ (ph + 1) % n < n := by
  refine ⟨?_, h3, Nat.mod_lt _ (Nat.lt_of_lt_of_le Nat.zero_lt_one h1)⟩
  rw [executorPush, if_pos h2, if_pos h3]

/-- Witness for C7 at N = 4, push hint 2. -/
theorem C7_invalid_hint_round_robin_witness :
    executorPush 4 INVALID_ID 2 = some (2, (2 + 1) % 4)
    ∧ 2 < 4 ∧ (2 + 1) % 4 < 4 :=
  C7_invalid_hint_round_robin 4 2 (by decide) (by decide) (by decide)

/-! C10.  The unreachable_unchecked arm is dead. -/

/-- C10: in the retry loop shared by Processor::pop and the inner loop of
Executor::steal, every Retry outcome is removed by the filter before the
match, so the instrumented match never takes the unreachable_unchecked
arm (ub), under every oracle; moreover Processor::pop is exactly the
instrumented loop with the ub arm collapsed, so the embedding loses
nothing. -/
theorem C10_retry_arm_dead (τ : Type) (q : List (Steal τ)) :
    Option.all (fun r => !r.isUb) (retryLoopArm q) = true
    ∧ processorPop q =
        Option.map (fun r => match r with
          | RetryArm.ok o => o
          | RetryArm.ub => none) (retryLoopArm q) := by
  constructor
  · rw [retryLoopArm]
    cases hr : resolveRetries q with
    | none => rfl
    | some s =>
      have hs := resolveRetries_isRetry_false q s hr
      cases s with
      | Success t => rfl
      | Empty => rfl
      | Retry => simp [Steal.isRetry] at hs
  · rw [processorPop, retryLoopArm, Option.map_map]
    cases hr : resolveRetries q with
    | none => rfl
    | some s => cases s <;> rfl

/-! C6.  The Processor::sleep protocol. -/

/-- The spin/blocking loop consumes exactly one notification. -/
theorem sleepLoop_consume_count (tries : Nat → Bool) :
    ∀ r i, ((sleepLoop tries i r).filter ProcEv.isConsume).length = 1 := by
  intro r
  induction r with
  | zero =>
    intro i
    by_cases h : tries i <;>
      simp [sleepLoop, h, List.filter, ProcEv.isConsume]
  | succ r ih =>
    intro i
    by_cases h : tries i <;>
      simp [sleepLoop, h, List.filter, ProcEv.isConsume, ih]

/-- The spin/blocking loop never writes the heartbeat. -/
theorem sleepLoop_no_tick (tries : Nat → Bool) :
    ∀ r i e, e ∈ sleepLoop tries i r → e.isTick = false := by
  intro r
  induction r with
  | zero =>
    intro i e he
    rw [sleepLoop] at he
    by_cases h : tries i
    · rw [if_pos h] at he
      simp only [List.mem_singleton] at he
      subst he; rfl
    · rw [if_neg h] at he
      rcases List.mem_cons.mp he with rfl | he
      · rfl
      · simp only [List.mem_singleton] at he
        subst he; rfl
  | succ r ih =>
    intro i e he
    rw [sleepLoop] at he
    by_cases h : tries i
    · rw [if_pos h] at he
      simp only [List.mem_singleton] at he
      subst he; rfl
    · rw [if_neg h] at he
      rcases List.mem_cons.mp he with rfl | he
      · rfl
      · rcases List.mem_cons.mp he with rfl | he
        · rfl
        · exact ih (i + 1) e he

/-- C6: every run of Processor::sleep begins by setting the sleeping flag
(before the first try-receive, which can only appear later in the trace),
consumes exactly one wake notification (a successful try_recv during the
backoff spin or the final blocking recv), and its last action before
returning, on every exit path, is clearing the sleeping flag. -/
theorem C6_sleep_protocol (limit : Nat) (tries : Nat → Bool) :
    (sleepRun limit tries).head? = some (ProcEv.setSleeping true)
    ∧ ((sleepRun limit tries).filter ProcEv.isConsume).length = 1
    ∧ (sleepRun limit tries).getLast? = some (ProcEv.setSleeping false) := by
  refine ⟨rfl, ?_, ?_⟩
  · rw [sleepRun]
    simp [List.filter_append, ProcEv.isConsume, List.filter,
      sleepLoop_consume_count tries limit 0]
  · rw [sleepRun, ← List.cons_append, List.getLast?_concat]

/-! C9.  The claimed invariant (last_seen never changes while sleeping is
true) fails at machine startup: Machine::main ticks before clearing the
initially-true sleeping flag (src lines 91, 357-358). -/

/-- C9 counterexample: a processor as built by the EXECUTOR initializer
has sleeping = true and last_seen = 0; the first event of Machine::main's
entry is the tick, which (at now = 150) changes last_seen to 150 while
sleeping is still true.  So last_seen is modified while the sleeping flag
is continuously true, contradicting the claim. -/
theorem C9_startup_tick_while_sleeping_cex :
    initialProcessor.sleeping = true
    ∧ initialProcessor.last_seen = 0
    ∧ (mainEntry 150)[0]? = some (ProcEv.tick 150)
    ∧ (mainEntry 150)[1]? = some (ProcEv.setSleeping false)
    ∧ (applyEv initialProcessor (ProcEv.tick 150)).sleeping = true
    ∧ (applyEv initialProcessor (ProcEv.tick 150)).last_seen = 150 := by
  decide

/-- Events that are not ticks leave last_seen unchanged. -/
theorem foldl_applyEv_last_seen (evs : List ProcEv) :
    ∀ p : ProcModel, (∀ e ∈ evs, e.isTick = false) →
      (List.foldl applyEv p evs).last_seen = p.last_seen := by
  induction evs with
  | nil => intro p _; rfl
  | cons e rest ih =>
    intro p h
    rw [List.foldl_cons]
    rw [ih (applyEv p e) fun x hx => h x (List.mem_cons.mpr (Or.inr hx))]
    have he := h e (List.mem_cons_self e rest)
    cases e with
    | tick t => simp [ProcEv.isTick] at he
    | setSleeping b => rfl
    | tryRecv b => rfl
    | blockingRecv => rfl
    | snooze => rfl

/-- C9 amended: within Processor::sleep itself the invariant holds, i.e.
running the whole sleep trace (which brackets the wait between setting
and clearing the sleeping flag) never modifies last_seen, since sleep
contains no tick; but globally the claim fails only in the startup
window: Machine::main's entry tick writes last_seen while the
initially-true sleeping flag is still set, clearing it only afterwards. -/
theorem C9_amended_sleep_never_ticks (limit : Nat) (tries : Nat → Bool)
    (p : ProcModel) (hs : p.sleeping = true) (now : Nat) :
    (List.foldl applyEv p (sleepRun limit tries)).last_seen = p.last_seen
    ∧ (sleepRun limit tries).head? = some (ProcEv.setSleeping true)
    ∧ (sleepRun limit tries).getLast? = some (ProcEv.setSleeping false)
    ∧ (applyEv p (ProcEv.tick now)).sleeping = true
    ∧ (applyEv p (ProcEv.tick now)).last_seen = now := by
  have hall : ∀ e ∈ sleepRun limit tries, e.isTick = false := by
    intro e he
    rw [sleepRun] at he
    rcases List.mem_cons.mp he with rfl | he
    · rfl
    rcases List.mem_append.mp he with he | he
    · exact sleepLoop_no_tick tries limit 0 e he
    · simp only [List.mem_singleton] at he
      subst he; rfl
  refine ⟨foldl_applyEv_last_seen _ p hall, rfl, ?_, ?_, rfl⟩
  · rw [sleepRun, ← List.cons_append, List.getLast?_concat]
  · simpa [applyEv] using hs

/-- Witness for the amended C9 at the initial processor state. -/
theorem C9_amended_sleep_never_ticks_witness :
    (List.foldl applyEv initialProcessor (sleepRun 1 fun _ => false)).last_seen
      = initialProcessor.last_seen
    ∧ (sleepRun 1 fun _ => false).head? = some (ProcEv.setSleeping true)
    ∧ (sleepRun 1 fun _ => false).getLast? = some (ProcEv.setSleeping false)
    ∧ (applyEv initialProcessor (ProcEv.tick 150)).sleeping = true
    ∧ (applyEv initialProcessor (ProcEv.tick 150)).last_seen = 150 :=
  C9_amended_sleep_never_ticks 1 (fun _ => false) initialProcessor (by decide) 150

/-! C8.  Executor::steal with a single machine slot. -/

/-- C8 counterexample: with N = 1 machine slot whose stealer yields a
task, Executor::steal returns that task (and the unchanged hint 0), not
none; the code never special-cases N = 1, it attempts the single slot's
stealer like any other.  (Reachable in the source: a replaced machine
calling steal with its own worker as destination while the new machine
bound to the processor has work in its deque.) -/
theorem C8_single_machine_steal_can_succeed_cex :
    executorSteal [[Steal.Success (7 : Nat)]] 0 = some (some 7, 0)
    ∧ Option.isSome (some (7 : Nat)) = true := by
  decide

/-- C8 amended: with N = 1, Executor::steal attempts exactly the single
slot's stealer; it returns none precisely when that stealer's
retry-absorbed outcome is Empty (as it is when the caller is the slot's
own machine stealing into its just-drained worker), returns the yielded
task when the outcome is a Success, and in either case leaves the steal
hint at 0 (= anything mod 1). -/
theorem C8_amended_single_machine (τ : Type) (q : List (Steal τ))
    (r : Steal τ) (h : resolveRetries q = some r) :
    executorSteal [q] 0 = some (stealToTask r, 0) := by
  cases r with
  | Success t =>
    rw [executorSteal, show (List.drop 0 [q] ++ List.take 0 [q]) = [q] from rfl,
      stealScan, h]
    simp [stealScan, stealToTask]
  | Empty =>
    rw [executorSteal, show (List.drop 0 [q] ++ List.take 0 [q]) = [q] from rfl,
      stealScan, h]
    simp [stealScan, stealToTask]
  | Retry =>
    rw [executorSteal, show (List.drop 0 [q] ++ List.take 0 [q]) = [q] from rfl,
      stealScan, h]
    simp [stealScan, stealToTask]

/-- Witness for the amended C8: a retry followed by Empty resolves to
Empty, and the single-machine steal returns none with hint 0. -/
theorem C8_amended_single_machine_witness :
    executorSteal [[Steal.Retry, Steal.Empty]] 0
      = some (stealToTask (Steal.Empty : Steal Nat), 0) :=
  C8_amended_single_machine Nat [Steal.Retry, Steal.Empty] Steal.Empty (by decide)

/-! C2.  The sysmon scan. -/

/-- Above 100 ms the u64 subtraction in must_seen_at does not wrap. -/
theorem mustSeenAt_eq (now : Nat) (h1 : 100 ≤ now) (h2 : now < U64_MOD) :
    mustSeenAt now = now - 100 := by
  have hM : 100 ≤ U64_MOD := by rw [U64_MOD]; norm_num
  rw [mustSeenAt, show BLOCKING_THRESHOLD_MS = 100 from rfl]
  rw [show now + (U64_MOD - 100) = (now - 100) + U64_MOD by omega]
  rw [Nat.add_mod_right]
  exact Nat.mod_eq_of_lt (by omega)

/-- The skip condition, spelled out: sleeping, or seen within the last
100 ms. -/
theorem shouldSkip_iff (now : Nat) (h1 : 100 ≤ now) (h2 : now < U64_MOD)
    (p : ProcModel) :
    shouldSkip now p = true ↔ (p.sleeping = true ∨ now - 100 ≤ p.last_seen) := by
  rw [shouldSkip, mustSeenAt_eq now h1 h2]
  simp [Bool.or_eq_true, decide_eq_true_iff]

/-- Unfolding of one scan step. -/
theorem scanGo_cons (now ctr : Nat) (pm : ProcModel × MachineModel)
    (rest : List (ProcModel × MachineModel)) :
    scanGo now (pm :: rest) ctr =
      if shouldSkip now pm.1 then
        (pm :: (scanGo now rest ctr).1, (scanGo now rest ctr).2)
      else
        (replacement pm ctr :: (scanGo now rest (ctr + 1)).1,
          (scanGo now rest (ctr + 1)).2) := by
  by_cases h : shouldSkip now pm.1 <;>
    simp [scanGo, h, replacement, createWithProcessor]

/-- Pointwise description of the scan: slot i is left alone iff its
processor satisfies the skip condition, and otherwise is replaced with the
fresh id ctr + (number of replacements at earlier indices). -/
theorem scanGo_getElem? (now : Nat) (l : List (ProcModel × MachineModel)) :
    ∀ (ctr i : Nat),
      ((scanGo now l ctr).1)[i]? = (l[i]?).map fun pm =>
        if shouldSkip now pm.1 then pm
        else replacement pm (ctr + replacedBelow now l i) := by
  induction l with
  | nil => intro ctr i; simp [scanGo]
  | cons pm rest ih =>
    intro ctr i
    rw [scanGo_cons]
    by_cases hsk : shouldSkip now pm.1
    · rw [if_pos hsk]
      cases i with
      | zero =>
        simp only [List.getElem?_cons_zero, Option.map_some']
        rw [if_pos hsk]
      | succ i =>
        simp only [List.getElem?_cons_succ]
        rw [ih ctr i]
        have hrb : replacedBelow now (pm :: rest) (i + 1) = replacedBelow now rest i := by
          rw [replacedBelow, replacedBelow,
            show (pm :: rest).take (i + 1) = pm :: rest.take i from rfl,
            List.filter_cons, if_neg (by simp [hsk])]
        rw [hrb]
    · rw [if_neg hsk]
      cases i with
      | zero =>
        simp only [List.getElem?_cons_zero, Option.map_some']
        rw [if_neg hsk,
          show replacedBelow now (pm :: rest) 0 = 0 from rfl, Nat.add_zero]
      | succ i =>
        simp only [List.getElem?_cons_succ]
        rw [ih (ctr + 1) i]
        have hrb : ctr + replacedBelow now (pm :: rest) (i + 1)
            = (ctr + 1) + replacedBelow now rest i := by
          rw [replacedBelow, replacedBelow,
            show (pm :: rest).take (i + 1) = pm :: rest.take i from rfl,
            List.filter_cons, if_pos (by simp [hsk]), List.length_cons]
          omega
        rw [← hrb]

/-- The machine id counter advances by exactly the number of
replacements, so each new machine gets a fresh id. -/
theorem scanGo_counter (now : Nat) (l : List (ProcModel × MachineModel)) :
    ∀ ctr : Nat,
      (scanGo now l ctr).2 = ctr + (l.filter fun pm => !shouldSkip now pm.1).length := by
  induction l with
  | nil => intro ctr; simp [scanGo]
  | cons pm rest ih =>
    intro ctr
    rw [scanGo_cons]
    by_cases hsk : shouldSkip now pm.1
    · rw [if_pos hsk]
      simp only [List.filter_cons, if_neg (show ¬((!shouldSkip now pm.1) = true) by simp [hsk])]
      exact ih ctr
    · rw [if_neg hsk]
      simp only [List.filter_cons, if_pos (show (!shouldSkip now pm.1) = true by simp [hsk]),
        List.length_cons]
      rw [ih (ctr + 1)]
      omega

/-- C2: in one sysmon scan at time now, slot i is skipped (left exactly
as it was) iff its processor is sleeping or its last_seen is at least
now - 100 ms; every non-skipped slot is replaced by a machine whose
inherit is the current machine's stealer, whose id is the freshly
allocated counter value (ctr plus the number of replacements at earlier
indices, the counter advancing by one per replacement), and that id is
stored into the processor's machine_id (replacement spells all of this
out). -/
theorem C2_sysmon_scan (now ctr i : Nat) (l : List (ProcModel × MachineModel)) :
    ((scanGo now l ctr).1)[i]? = (l[i]?).map (fun pm =>
        if shouldSkip now pm.1 then pm
        else replacement pm (ctr + replacedBelow now l i))
    ∧ (scanGo now l ctr).2 = ctr + (l.filter fun pm => !shouldSkip now pm.1).length
    ∧ (100 ≤ now → now < U64_MOD → ∀ p : ProcModel,
        (shouldSkip now p = true ↔ (p.sleeping = true ∨ now - 100 ≤ p.last_seen))) :=
  ⟨scanGo_getElem? now l ctr i, scanGo_counter now l ctr,
    fun h1 h2 p => shouldSkip_iff now h1 h2 p⟩

/-- Witness for C2 at now = 150 ms and the initial processor state. -/
theorem C2_sysmon_scan_witness :
    shouldSkip 150 initialProcessor = true
      ↔ (initialProcessor.sleeping = true ∨ 150 - 100 ≤ initialProcessor.last_seen) :=
  (C2_sysmon_scan 150 0 0 []).2.2 (by decide) (by norm_num [U64_MOD]) initialProcessor

/-! C3.  The post-run check in Machine::main. -/

/-- Unfolding of one iteration when a source yields a task. -/
theorem machineIter_eq_of_poll_some (selfId rc : Nat) (env : IterEnv τ)
    (t0 : τ) (r1 r0 : Nat) (hp : machinePoll rc env = (some (t0, r1), r0)) :
    machineIter selfId rc env = runTaskStep selfId env.observedMachineId r1 t0 := by
  rw [machineIter, hp]

/-- Unfolding of one iteration when no source yields a task. -/
theorem machineIter_eq_of_poll_none (selfId rc : Nat) (env : IterEnv τ)
    (r0 : Nat) (hp : machinePoll rc env = (none, r0)) :
    machineIter selfId rc env = IterOut.noTask r0 := by
  rw [machineIter, hp]

/-- Unfolding of the trace when the iteration ran a task. -/
theorem machineMain_cons_ranTask (selfId rc : Nat) (env : IterEnv τ)
    (rest : List (IterEnv τ)) (t : τ) (ex : Bool) (rc2 : Nat)
    (h : machineIter selfId rc env = IterOut.ranTask t ex rc2) :
    machineMain selfId rc (env :: rest) =
      (t, env.observedMachineId) :: (if ex then [] else machineMain selfId rc2 rest) := by
  rw [machineMain, h]

/-- Unfolding of the trace when the iteration ran no task. -/
theorem machineMain_cons_noTask (selfId rc : Nat) (env : IterEnv τ)
    (rest : List (IterEnv τ)) (rc2 : Nat)
    (h : machineIter selfId rc env = IterOut.noTask rc2) :
    machineMain selfId rc (env :: rest) = machineMain selfId rc2 rest := by
  rw [machineMain, h]

/-- The exit decision after running a task is exactly the machine_id
comparison. -/
theorem machineIter_exit (selfId rc : Nat) (env : IterEnv τ) (t : τ)
    (ex : Bool) (rc2 : Nat)
    (h : machineIter selfId rc env = IterOut.ranTask t ex rc2) :
    ex = true ↔ env.observedMachineId ≠ selfId := by
  rcases hmp : machinePoll rc env with ⟨op, r0⟩
  cases op with
  | none =>
    rw [machineIter_eq_of_poll_none selfId rc env r0 hmp] at h
    exact absurd h (by simp)
  | some tr =>
    rcases tr with ⟨t0, r1⟩
    rw [machineIter_eq_of_poll_some selfId rc env t0 r1 r0 hmp, runTaskStep] at h
    by_cases hobs : env.observedMachineId ≠ selfId
    · rw [if_pos hobs] at h
      injection h with a b c
      rw [← b]
      simp [hobs]
    · rw [if_neg hobs] at h
      injection h with a b c
      rw [← b]
      simp [hobs]

/-- Once the post-run check observes a foreign machine_id, the trace
ends: that task is the last one this machine ever runs. -/
theorem machineMain_stops (selfId : Nat) (envs : List (IterEnv τ)) :
    ∀ (rc j : Nat) (pm : τ × Nat),
      (machineMain selfId rc envs)[j]? = some pm → pm.2 ≠ selfId →
      (machineMain selfId rc envs).length = j + 1 := by
  induction envs with
  | nil => intro rc j pm h hne; rw [machineMain] at h; simp at h
  | cons env rest ih =>
    intro rc j pm h hne
    cases hit : machineIter selfId rc env with
    | noTask rc2 =>
      rw [machineMain_cons_noTask selfId rc env rest rc2 hit] at h ⊢
      exact ih rc2 j pm h hne
    | ranTask t ex rc2 =>
      rw [machineMain_cons_ranTask selfId rc env rest t ex rc2 hit] at h ⊢
      cases j with
      | zero =>
        rw [List.getElem?_cons_zero] at h
        obtain rfl : (t, env.observedMachineId) = pm := Option.some.inj h
        have hex : ex = true := (machineIter_exit selfId rc env t ex rc2 hit).mpr hne
        rw [hex]
        simp
      | succ j =>
        rw [List.getElem?_cons_succ] at h
        cases ex with
        | true =>
          rw [if_pos rfl] at h
          simp at h
        | false =>
          rw [if_neg (by simp)] at h ⊢
          rw [List.length_cons, ih rc2 j pm h hne]

/-- C3: after every task a machine runs, the post-run check compares the
processor's machine_id with the machine's own id.  First conjunct: in any
trace of Machine::main, a task whose check observed a foreign machine_id
is the last task of the trace (the loop returns immediately and the
machine never runs another task).  Second conjunct: the check itself,
runTaskStep, exits with the counter untouched when the ids differ, and
continues with the run counter incremented when they are equal. -/
theorem C3_post_run_check (τ : Type) (selfId rc : Nat) (envs : List (IterEnv τ)) :
    (∀ (j : Nat) (pm : τ × Nat),
        (machineMain selfId rc envs)[j]? = some pm → pm.2 ≠ selfId →
        (machineMain selfId rc envs).length = j + 1)
    ∧ (∀ (observed r : Nat) (t : τ),
        (observed ≠ selfId → runTaskStep selfId observed r t = IterOut.ranTask t true r)
        ∧ (observed = selfId → runTaskStep selfId observed r t = IterOut.ranTask t false (r + 1))) := by
  refine ⟨fun j pm h hne => machineMain_stops selfId envs rc j pm h hne, ?_⟩
  intro observed r t
  constructor
  · intro h; rw [runTaskStep, if_pos h]
  · intro h; rw [runTaskStep, if_neg (by simp [h])]

/-- Witness for C3: machine 1 runs task 42, observes machine_id 2 at the
check, and the trace stops after that single task. -/
theorem C3_post_run_check_witness :
    (machineMain 1 0 [c3env]).length = 0 + 1
    ∧ runTaskStep 1 2 0 (42 : Nat) = IterOut.ranTask 42 true 0 := by
  refine ⟨(C3_post_run_check Nat 1 0 [c3env]).1 0 (42, 2) (by decide) (by decide), ?_⟩
  exact ((C3_post_run_check Nat 1 0 [c3env]).2 2 0 42).1 (by decide)

/-! C4 and C5: the rotation orders of Executor::pop and Executor::steal. -/

/-- Every list is the range-indexed map of its own getD. -/
theorem self_eq_range_map {α : Type} (l : List α) (d : α) :
    l = (List.range l.length).map fun k => l.getD k d := by
  induction l with
  | nil => rfl
  | cons a tl ih =>
    rw [List.length_cons, List.range_succ_eq_map, List.map_cons, List.map_map,
      List.getD_cons_zero]
    refine congrArg₂ List.cons rfl ?_
    conv_lhs => rw [ih]
    apply List.map_congr_left
    intro k hk
    simp [Function.comp, List.getD_cons_succ]

/-- drop i as a range-indexed map. -/
theorem drop_eq_range_map {α : Type} (l : List α) (d : α) (i : Nat) :
    l.drop i = (List.range (l.length - i)).map fun k => l.getD (i + k) d := by
  have h1 := self_eq_range_map (l.drop i) d
  rw [List.length_drop] at h1
  rw [h1]
  apply List.map_congr_left
  intro k hk
  rw [List.getD_eq_getElem?_getD, List.getD_eq_getElem?_getD, List.getElem?_drop]

/-- take i as a range-indexed map. -/
theorem take_eq_range_map {α : Type} (l : List α) (d : α) (i : Nat)
    (h : i ≤ l.length) :
    l.take i = (List.range i).map fun k => l.getD k d := by
  have h1 := self_eq_range_map (l.take i) d
  rw [List.length_take, Nat.min_eq_left h] at h1
  rw [h1]
  apply List.map_congr_left
  intro k hk
  rw [List.mem_range] at hk
  rw [List.getD_eq_getElem?_getD, List.getD_eq_getElem?_getD]
  congr 1
  exact List.getElem?_take_of_lt hk

/-- The rotated vector of the source (split_at then chain) is exactly the
claim-side order i, i+1, ..., n-1, 0, ..., i-1, elementwise. -/
theorem rotation_eq_stealOrder_map {α : Type} (l : List α) (d : α) (i : Nat)
    (h : i ≤ l.length) :
    l.drop i ++ l.take i = (stealOrder l.length i).map fun j => l.getD j d := by
  rw [stealOrder, List.map_append, List.map_map]
  refine congrArg₂ (· ++ ·) ?_ ?_
  · rw [drop_eq_range_map l d i]
    apply List.map_congr_left
    intro k hk
    simp [Function.comp]
  · exact take_eq_range_map l d i h

/-- The source scan and the claim-side scan agree along any index list. -/
theorem popScan_eq_specPopScan (qs : List (List (Steal τ))) :
    ∀ js : List Nat, popScan (js.map fun j => qs.getD j []) = specPopScan qs js := by
  intro js
  induction js with
  | nil => rfl
  | cons j rest ih =>
    rw [List.map_cons, popScan, specPopScan, processorPop]
    cases hr : resolveRetries (qs.getD j []) with
    | none => rfl
    | some s =>
      cases s with
      | Success t => rfl
      | Empty => exact ih
      | Retry => exact ih

/-- popScan depends on each injector only through its retry-absorbed
outcome. -/
theorem popScan_congr : ∀ qs1 qs2 : List (List (Steal τ)),
    qs1.map resolveRetries = qs2.map resolveRetries → popScan qs1 = popScan qs2 := by
  intro qs1
  induction qs1 with
  | nil =>
    intro qs2 h
    cases qs2 with
    | nil => rfl
    | cons b l2 => simp at h
  | cons a l1 ih =>
    intro qs2 h
    cases qs2 with
    | nil => simp at h
    | cons b l2 =>
      rw [List.map_cons, List.map_cons] at h
      injection h with h1 h2
      rw [popScan, popScan, processorPop, processorPop, h1]
      cases hr : resolveRetries b with
      | none => rfl
      | some s =>
        cases s with
        | Success t => rfl
        | Empty => exact ih l2 h2
        | Retry => exact ih l2 h2

/-- Replacing one oracle by another with the same retry-absorbed outcome
does not change the resolved-outcome list. -/
theorem map_resolve_set (qs : List (List (Steal τ))) :
    ∀ (j : Nat) (q2 : List (Steal τ)), j < qs.length →
      resolveRetries q2 = resolveRetries (qs.getD j []) →
      (qs.set j q2).map resolveRetries = qs.map resolveRetries := by
  induction qs with
  | nil => intro j q2 hj _; simp at hj
  | cons a tl ih =>
    intro j q2 hj hq
    cases j with
    | zero =>
      rw [List.getD_cons_zero] at hq
      rw [List.set_cons_zero, List.map_cons, List.map_cons, hq]
    | succ j =>
      rw [List.getD_cons_succ] at hq
      rw [List.set_cons_succ, List.map_cons, List.map_cons]
      rw [ih j q2 (by simpa using hj) hq]

/-- C4: Executor::pop attempts the injectors of processors i, i+1, ...,
N-1, 0, ..., i-1 in exactly that order (specPop spells out that order by
modular index) and returns the first task obtained, none when every
injector is empty; the result depends on each injector only through its
retry-absorbed outcome, a Retry making the loop re-attempt the same
injector (prepending Retry outcomes changes nothing), never advancing. -/
theorem C4_pop_rotation_order (τ : Type) (qs : List (List (Steal τ))) (i : Nat)
    (h : i < qs.length) :
    executorPop qs i = specPop qs i
    ∧ (∀ (j : Nat) (q2 : List (Steal τ)), j < qs.length →
        resolveRetries q2 = resolveRetries (qs.getD j []) →
        executorPop (qs.set j q2) i = executorPop qs i)
    ∧ (∀ q2 : List (Steal τ), resolveRetries (Steal.Retry :: q2) = resolveRetries q2) := by
  refine ⟨?_, ?_, fun q2 => resolveRetries_cons_retry q2⟩
  · rw [executorPop, specPop, rotation_eq_stealOrder_map qs [] i (Nat.le_of_lt h)]
    exact popScan_eq_specPopScan qs (stealOrder qs.length i)
  · intro j q2 hj hq
    rw [executorPop, executorPop]
    apply popScan_congr
    rw [List.map_append, List.map_append, List.map_drop, List.map_drop,
      List.map_take, List.map_take, map_resolve_set qs j q2 hj hq]

/-- Witness for C4 on two concrete injector oracles, including a
retry-prefixed variant. -/
theorem C4_pop_rotation_order_witness :
    executorPop c4qs 1 = specPop c4qs 1
    ∧ executorPop (c4qs.set 0 [Steal.Retry, Steal.Empty]) 1 = executorPop c4qs 1
    ∧ resolveRetries ((Steal.Retry : Steal Nat) :: [Steal.Empty])
        = resolveRetries [(Steal.Empty : Steal Nat)] := by
  have h := C4_pop_rotation_order Nat c4qs 1 (by decide)
  exact ⟨h.1, h.2.1 0 [Steal.Retry, Steal.Empty] (by decide) (by decide),
    h.2.2 [Steal.Empty]⟩

/-- Executor::steal, with its final hint-store map factored out. -/
theorem executorSteal_as_finish (ms : List (List (Steal τ))) (m : Nat) :
    executorSteal ms m
      = stealFinish m ms.length (stealScan 1 (ms.drop m ++ ms.take m)) := by
  rw [executorSteal]
  cases stealScan 1 (ms.drop m ++ ms.take m) with
  | none => rfl
  | some o =>
    cases o with
    | none => rfl
    | some tk => obtain ⟨t, k⟩ := tk; rfl

/-- The claim-side steal, with its finish factored out. -/
theorem specSteal_as_finish (ms : List (List (Steal τ))) (m : Nat) :
    specSteal ms m = specFinish m (specStealScan ms (stealOrder ms.length m)) := by
  rw [specSteal]
  cases specStealScan ms (stealOrder ms.length m) with
  | none => rfl
  | some o =>
    cases o with
    | none => rfl
    | some tk => obtain ⟨t, k⟩ := tk; rfl

/-- stealScan depends on each stealer only through its retry-absorbed
outcome. -/
theorem stealScan_congr : ∀ (k : Nat) (qs1 qs2 : List (List (Steal τ))),
    qs1.map resolveRetries = qs2.map resolveRetries →
    stealScan k qs1 = stealScan k qs2 := by
  intro k qs1
  induction qs1 generalizing k with
  | nil =>
    intro qs2 h
    cases qs2 with
    | nil => rfl
    | cons b l2 => simp at h
  | cons a l1 ih =>
    intro qs2 h
    cases qs2 with
    | nil => simp at h
    | cons b l2 =>
      rw [List.map_cons, List.map_cons] at h
      injection h with h1 h2
      rw [stealScan, stealScan, h1]
      cases hr : resolveRetries b with
      | none => rfl
      | some s =>
        cases s with
        | Success t => rfl
        | Empty => exact ih (k + 1) l2 h2
        | Retry => exact ih (k + 1) l2 h2

/-- The 1-based relative hint_add of the source scan and the absolute
donor index of the claim-side scan give the same stored hint, provided
the positions align modulo N. -/
theorem stealScan_align (ms : List (List (Steal τ))) (m : Nat) :
    ∀ (js : List Nat) (k : Nat),
      (∀ p, p < js.length →
        (m + (k + p)) % ms.length = (js.getD p 0 + 1) % ms.length) →
      stealFinish m ms.length (stealScan k (js.map fun j => ms.getD j []))
        = specFinish m (specStealScan ms js) := by
  intro js
  induction js with
  | nil => intro k hp; rfl
  | cons j rest ih =>
    intro k hp
    rw [List.map_cons, stealScan, specStealScan]
    cases hr : resolveRetries (ms.getD j []) with
    | none => rfl
    | some s =>
      cases s with
      | Success t =>
        have h0 := hp 0 (by simp)
        rw [List.getD_cons_zero, Nat.add_zero] at h0
        simp only [stealFinish, specFinish]
        rw [h0]
      | Empty =>
        refine ih (k + 1) ?_
        intro p hpl
        have hs := hp (p + 1) (by simp only [List.length_cons]; omega)
        rw [List.getD_cons_succ] at hs
        rw [← hs]
        congr 2
        omega
      | Retry =>
        refine ih (k + 1) ?_
        intro p hpl
        have hs := hp (p + 1) (by simp only [List.length_cons]; omega)
        rw [List.getD_cons_succ] at hs
        rw [← hs]
        congr 2
        omega

/-- stealOrder has length n when i ≤ n. -/
theorem stealOrder_length (n i : Nat) (h : i ≤ n) :
    (stealOrder n i).length = n := by
  rw [stealOrder]
  simp only [List.length_append, List.length_map, List.length_range]
  omega

/-- Element p of the claim-side order. -/
theorem stealOrder_getD (n i p : Nat) (hp : p < n) :
    (stealOrder n i).getD p 0 = if p < n - i then i + p else p - (n - i) := by
  rw [stealOrder, List.getD_eq_getElem?_getD, List.getElem?_append,
    List.length_map, List.length_range]
  by_cases h : p < n - i
  · rw [if_pos h, if_pos h, List.getElem?_map, List.getElem?_range h]
    rfl
  · rw [if_neg h, if_neg h, List.getElem?_range (by omega)]
    rfl

/-- C5: Executor::steal traverses the machines vector circularly starting
at the loaded hint m (specSteal spells that order out by absolute donor
index), re-attempting a stealer on Retry; on the first success the new
hint is one position past the donor modulo N, and after a full
unsuccessful circuit the result is none and the hint is unchanged; the
result depends on each stealer only through its retry-absorbed outcome. -/
theorem C5_steal_rotation_hint (τ : Type) (ms : List (List (Steal τ))) (m : Nat)
    (h : m < ms.length) :
    executorSteal ms m = specSteal ms m
    ∧ (∀ (j : Nat) (q2 : List (Steal τ)), j < ms.length →
        resolveRetries q2 = resolveRetries (ms.getD j []) →
        executorSteal (ms.set j q2) m = executorSteal ms m) := by
  constructor
  · rw [executorSteal_as_finish, specSteal_as_finish,
      rotation_eq_stealOrder_map ms [] m (Nat.le_of_lt h)]
    apply stealScan_align
    intro p hp
    rw [stealOrder_length ms.length m (Nat.le_of_lt h)] at hp
    rw [stealOrder_getD ms.length m p hp]
    by_cases hcase : p < ms.length - m
    · rw [if_pos hcase]
      have he : m + (1 + p) = (m + p) + 1 := by omega
      rw [he]
    · rw [if_neg hcase]
      have he : m + (1 + p) = (p - (ms.length - m) + 1) + ms.length := by omega
      rw [he, Nat.add_mod_right]
  · intro j q2 hj hq
    rw [executorSteal_as_finish, executorSteal_as_finish, List.length_set]
    congr 1
    apply stealScan_congr
    rw [List.map_append, List.map_append, List.map_drop, List.map_drop,
      List.map_take, List.map_take, map_resolve_set ms j q2 hj hq]

/-- Witness for C5 on two concrete stealer oracles: the steal at hint 1
succeeds on the donor at index 1 and stores hint (1 + 1) mod 2 = 0, and a
retry-prefixed oracle changes nothing. -/
theorem C5_steal_rotation_hint_witness :
    executorSteal c5ms 1 = specSteal c5ms 1
    ∧ executorSteal (c5ms.set 0 [Steal.Retry, Steal.Empty]) 1 = executorSteal c5ms 1 := by
  have h := C5_steal_rotation_hint Nat c5ms 1 (by decide)
  exact ⟨h.1, h.2 0 [Steal.Retry, Steal.Empty] (by decide) (by decide)⟩

end Lelet
